import Mathlib

/-!
# mod-gearman-worker-go: embedded perl pool, result delivery, admin status parser

A shallow embedding of `epn.go`, `worker.go` and `pkg/modgearman/statusAdmin.go`.

Conventions of the embedding
* Go strings that are parsed are lists of characters (`GoString`); the text is taken to be
  valid UTF-8, so that byte-wise prefix and substring tests agree with character-wise ones.
* A Go runtime fault (slice out of range) is the `Except.error` result of the embedded function.
* Everything the program obtains from outside (network, file system, clock, sidecar) is an
  explicit argument of the embedded function; effects are recorded in an event list.
* The goroutine that `startEmbeddedPerl` starts to wait for the sidecar is kept as a watcher of
  that process; the surroundings say at which point of a later call its `cmd.Wait()` returns,
  and it then runs `stopEmbeddedPerl` on the package variables as they are at that point.
-/

namespace ModGearman

/-- Equality of results is decidable. -/
instance instDecidableEqExcept {ε α : Type} [DecidableEq ε] [DecidableEq α] :
    DecidableEq (Except ε α)
  | .ok a, .ok b => if h : a = b then isTrue (by rw [h]) else isFalse (by simpa using h)
  | .error a, .error b => if h : a = b then isTrue (by rw [h]) else isFalse (by simpa using h)
  | .ok _, .error _ => isFalse (by simp)
  | .error _, .ok _ => isFalse (by simp)

/-! ## Go standard library: `strings`, `unicode` -/

/-- Parsed text. -/
abbrev GoString := List Char

/-- Go `unicode.IsSpace`: the Latin-1 spaces and the code points of category Z / property
`White_Space`. -/
def isSpace (c : Char) : Bool :=
  c.toNat = 0x09 || c.toNat = 0x0A || c.toNat = 0x0B || c.toNat = 0x0C || c.toNat = 0x0D ||
  c.toNat = 0x20 || c.toNat = 0x85 || c.toNat = 0xA0 || c.toNat = 0x1680 ||
  (0x2000 ≤ c.toNat && c.toNat ≤ 0x200A) ||
  c.toNat = 0x2028 || c.toNat = 0x2029 || c.toNat = 0x202F || c.toNat = 0x205F ||
  c.toNat = 0x3000

/-- Go `strings.HasPrefix`. -/
def HasPrefix (s p : GoString) : Bool := p.isPrefixOf s

/-- Go `strings.TrimPrefix`. -/
def TrimPrefix (s p : GoString) : GoString :=
  if HasPrefix s p then s.drop p.length else s

/-- Go `strings.Contains`. -/
def Contains : GoString → GoString → Bool
  | [], sub => sub.isPrefixOf []
  | c :: cs, sub => sub.isPrefixOf (c :: cs) || Contains cs sub

/-- Go `strings.TrimRightFunc(s, unicode.IsSpace)`. -/
def trimRight : GoString → GoString
  | [] => []
  | c :: cs =>
    match trimRight cs with
    | [] => if isSpace c then [] else [c]
    | r :: rs => c :: r :: rs

/-- Go `strings.TrimSpace`. -/
def TrimSpace (s : GoString) : GoString := trimRight (s.dropWhile isSpace)

/-! ## Configuration -/

/-- The fields of `configurationStruct` that the embedded functions read. -/
structure configurationStruct where
  enableEmbeddedPerl : Bool
  useEmbeddedPerlImplicitly : Bool
  usePerlCache : Bool
  debug : Int
  p1File : String
  server : List String
  dupserver : List String
  dupResultsArePassive : Bool
  encryption : Bool
deriving DecidableEq, Repr

/-! ## `epn.go`: classification of a plugin file -/

/-- Value of `ePNFilePrefix`: the prefixes of an explicit epn flag. -/
def ePNFilePrefix : List GoString :=
  ["# nagios:".toList, "# naemon:".toList, "# icinga:".toList]

/-- The `for _, prefix := range ePNFilePrefix` loop of `detectFileUsesEmbeddedPerl` on one line.
The loop variable `line` is reassigned inside the loop, so a later prefix is tested against the
trimmed remainder. `line[0:1]` faults on the empty string. Result `some b` is `return b`,
`none` is falling out of the loop. The first byte of valid UTF-8 text is `+` (or `-`) exactly
when its first character is. -/
def scanPrefixes : List GoString → GoString → Except String (Option Bool)
  | [], _ => .ok none
  | p :: ps, line =>
    if HasPrefix line p then
      match TrimSpace (TrimPrefix line p) with
      | [] => .error "slice bounds out of range [:1] with length 0"
      | c :: cs =>
        if c = '+' then .ok (some true)
        else if c = '-' then .ok (some false)
        else scanPrefixes ps (c :: cs)
    else scanPrefixes ps line

/-- Go `bufio.MaxScanTokenSize`, the token limit of a scanner whose buffer was not set. -/
def MaxScanTokenSize : Nat := 64 * 1024

/-- Number of bytes of a character in UTF-8. -/
def utf8Len (c : Char) : Nat :=
  if c.toNat < 0x80 then 1 else if c.toNat < 0x800 then 2 else if c.toNat < 0x10000 then 3 else 4

/-- Go `len(s)`: the number of bytes of the text. -/
def byteLen : GoString → Nat
  | [] => 0
  | c :: cs => utf8Len c + byteLen cs

/-- Go `dropCR` of package `bufio`: a final carriage return is dropped. -/
def dropCR (s : GoString) : GoString :=
  if s.getLast? = some '\r' then s.dropLast else s

/-- One call of `fileScanner.Scan()` (split function `bufio.ScanLines`, default buffer) with
`raw` the text up to the next line feed or the end of the file: `some line` when `Scan` returns
true, `line` being `fileScanner.Text()`; `none` when it returns false because the line, with
its line feed, does not fit into the buffer of `MaxScanTokenSize` bytes (`bufio.ErrTooLong`,
which the function never looks at). -/
def scanLine (raw : GoString) : Option GoString :=
  if byteLen raw < MaxScanTokenSize then some (dropCR raw) else none

/-- The scanner loop `for linesRead < 10 && fileScanner.Scan()` of `detectFileUsesEmbeddedPerl`;
the argument list holds what is left of the file, line by line (each element the text between
two line feeds, a carriage return before the line feed included). -/
def detectLoop (config : configurationStruct) : Nat → List GoString → Except String Bool
  | _, [] => .ok config.useEmbeddedPerlImplicitly
  | linesRead, raw :: rest =>
    if linesRead < 10 then
      match scanLine raw with
      | none => .ok config.useEmbeddedPerlImplicitly
      | some line =>
        if linesRead + 1 = 1 then
          if !Contains line "/bin/perl".toList then .ok false
          else detectLoop config (linesRead + 1) rest
        else if !HasPrefix line "# ".toList then detectLoop config (linesRead + 1) rest
        else
          match scanPrefixes ePNFilePrefix line with
          | .error e => .error e
          | .ok (some b) => .ok b
          | .ok none => detectLoop config (linesRead + 1) rest
    else .ok config.useEmbeddedPerlImplicitly

/-- Function `detectFileUsesEmbeddedPerl`. The first argument is the file as `os.Open` and the
reads give it: `none` when the file cannot be opened, else the lines of what can be read (a read
error ends the file for the scanner as the end of the file does). -/
def detectFileUsesEmbeddedPerl (content : Option (List GoString))
    (config : configurationStruct) : Except String Bool :=
  match content with
  | none => .ok false
  | some lines => detectLoop config 0 lines

/-- A byte; bytes are only moved, never computed with. -/
abbrev Byte := Nat

/-- The error a `Read` reports: `io.EOF` itself, an error that wraps it, or any other. -/
inductive ReadError where
  | EOF
  | wrapsEOF (msg : String)
  | other (msg : String)
deriving DecidableEq, Repr

/-- Go `errors.Is(err, io.EOF)`. -/
def ReadError.isEOF : ReadError → Bool
  | .EOF => true
  | .wrapsEOF _ => true
  | .other _ => false

/-- Go `err.Error()`. -/
def ReadError.Error : ReadError → String
  | .EOF => "EOF"
  | .wrapsEOF msg => msg
  | .other msg => msg

/-- An `io.Reader` that delivers finitely many bytes: `chunks` are handed out by successive
calls of `Read` without an error (a chunk longer than the buffer offered is handed out in
pieces, an empty chunk is a `Read` of 0 bytes); `last` is handed out together with the error
`final`, which every later `Read` reports again. -/
structure Reader where
  chunks : List (List Byte)
  last : List Byte
  final : ReadError

/-- Bound on the number of calls of `Read` before the error is reported. -/
def Reader.pending (r : Reader) : Nat :=
  (r.chunks.map (fun c => c.length + 1)).sum + r.last.length

/-- One call `Read(p)` with `len(p) = k`: the bytes read, the error, the reader afterwards. -/
def Reader.Read (r : Reader) (k : Nat) : List Byte × Option ReadError × Reader :=
  match r.chunks with
  | c :: cs =>
    if c.length ≤ k then (c, none, { r with chunks := cs })
    else (c.take k, none, { r with chunks := c.drop k :: cs })
  | [] =>
    if r.last.length ≤ k then (r.last, some r.final, { r with last := [] })
    else (r.last.take k, none, { r with last := r.last.drop k })

/-- Go `bytes.MinRead`: the least free space `bytes.Buffer.ReadFrom` offers to a `Read`. -/
def MinRead : Nat := 512

/-- The loop `for { _, err := io.CopyN(body, conn, 65536) ... }` of `ePNReadResponse`, with
`io.CopyN` (that is `bytes.Buffer.ReadFrom` on `io.LimitReader(conn, 65536)`) unrolled into its
calls of `Read`. `N` is what the running `CopyN` may still copy, `reads` counts the calls of
`Read`, and `avail i` is the free space beyond `MinRead` the buffer offers at call `i`.
* `N = 0`: `CopyN` has written all its bytes and returns nil; the `for` loop starts the next.
* `Read` gives no error: the bytes are appended, `CopyN` goes on.
* `Read` gives an error: the bytes are appended; if `CopyN` has now written all its bytes it
  returns nil all the same; otherwise it returns the error (`io.EOF` at end of stream), on
  which the `for` loop breaks when `errors.Is(err, io.EOF)` and returns the error otherwise. -/
def ePNReadLoop (avail : Nat → Nat) (body : List Byte) (conn : Reader) (N reads : Nat) :
    Except String (List Byte) :=
  if N = 0 then ePNReadLoop avail body conn 65536 reads
  else
    match hr : conn.Read (min (MinRead + avail reads) N) with
    | (data, none, conn2) =>
      ePNReadLoop avail (body ++ data) conn2 (N - data.length) (reads + 1)
    | (data, some err, conn2) =>
      if data.length = N then ePNReadLoop avail (body ++ data) conn2 0 (reads + 1)
      else if !err.isEOF then
        .error ("io.CopyN: " ++ err.Error ++ ": " ++ err.Error)
      else .ok (body ++ data)
termination_by (conn.pending, if N = 0 then 1 else 0)
decreasing_by
  all_goals simp_wf
  · rename_i h; simp [h]; exact Prod.Lex.right _ (by omega)
  · rename_i hN
    apply Prod.Lex.left
    simp only [Reader.Read] at hr
    unfold Reader.pending
    split at hr
    · rename_i c cs hc
      split at hr
      · simp only [Prod.mk.injEq] at hr
        rw [← hr.2.2, hc]; simp
      · simp only [Prod.mk.injEq] at hr
        rw [← hr.2.2, hc]; simp
        have : 0 < min (MinRead + avail reads) N := by simp [MinRead]; omega
        omega
    · rename_i hc
      split at hr
      · simp at hr
      · simp only [Prod.mk.injEq] at hr
        rw [← hr.2.2, hc]; simp
        have : 0 < min (MinRead + avail reads) N := by simp [MinRead]; omega
        omega
  · rename_i hN hlen
    apply Prod.Lex.left
    simp only [Reader.Read] at hr
    unfold Reader.pending
    split at hr
    · split at hr <;> simp at hr
    · rename_i hc
      split at hr
      · simp only [Prod.mk.injEq] at hr
        obtain ⟨h1, _, h3⟩ := hr
        subst h1 h3
        simp [hc]
        omega
      · simp at hr


/-- Function `ePNReadResponse`. -/
def ePNReadResponse (avail : Nat → Nat) (conn : Reader) : Except String (List Byte) :=
  ePNReadLoop avail [] conn 65536 0

/-- All the bytes a reader delivers, in order. -/
def Reader.all (r : Reader) : List Byte := r.chunks.flatten ++ r.last

/-- What `ePNReadResponse` is to return for a reader, `body` being the bytes already read. -/
def readOutcome (conn : Reader) (body : List Byte) : Except String (List Byte) :=
  if conn.final.isEOF then .ok (body ++ conn.all)
  else .error ("io.CopyN: " ++ conn.final.Error ++ ": " ++ conn.final.Error)

/-! ## `epn.go`: the supervisor of the epn server -/

/-- What the embedded functions do to the outside, in the order they do it. -/
inductive Event where
  | sleep (ms : Nat)
  | log (level : String) (msg : String)
  | stderr (msg : String)
  | dial (socket : String)
  | signal (pid : Nat)
  | release (pid : Nat)
  | remove (path : String)
  | start (path : String) (args : List String)
  | watch (pid : Nat)
  | write (msg : List Byte)
  | closeConn
  | send (address : String)
  | close (client : Nat)
deriving DecidableEq, Repr

/-- A `*time.Time`: the address of the allocated value and the instant it holds (in
milliseconds). Two pointers are the same pointer when their addresses are equal. -/
structure TimePtr where
  addr : Nat
  time : Nat
deriving DecidableEq, Repr

/-- A `*exec.Cmd`; `Process` is nil until the command has been started. -/
structure Cmd where
  Path : String
  Args : List String
  Process : Option Nat
deriving DecidableEq, Repr

/-- The package variables `ePNServerProcess`, `ePNServerSocket` (a `*os.File`, by its name) and
`ePNStarted`, with `heap`, the number of time values allocated so far (the next free address),
`watching`, the processes for which a goroutine started by `startEmbeddedPerl` sits in
`cmd.Wait()`, and the events so far. -/
structure EPNState where
  ePNServerProcess : Option Cmd
  ePNServerSocket : Option String
  ePNStarted : Option TimePtr
  heap : Nat
  watching : List Nat
  events : List Event
deriving DecidableEq, Repr

/-- Constant `ePNStartTimeout`, in milliseconds. -/
def ePNStartTimeout : Nat := 5000

/-- Constant `ePNStartRetryInterval`, in milliseconds. -/
def ePNStartRetryInterval : Nat := 50

/-- Constant `ePNMaxRetries`. -/
def ePNMaxRetries : Nat := 15

/-- What `startEmbeddedPerl` and `checkRestartEPNServer` meet outside: the clock (`now a` is
`time.Now()` when the value at address `a` is allocated), the constants `LogLevelDebug`,
`LogLevelTrace` and `ExitCodeError` declared elsewhere in the package, the results of
`os.CreateTemp`, `cmd.StdoutPipe`, `cmd.StderrPipe` and `cmd.Start`, whether the socket shows up
on a tick before the timeout fires in the waiting loop, and the schedule of the watching
goroutines: `waitErr pid` is the error `cmd.Wait()` returns for the process, `wakeEarly` lists
the processes whose `cmd.Wait()` returns between the `stopEmbeddedPerl` and the
`startEmbeddedPerl` of a restart, `wakeDuringWait` those whose `cmd.Wait()` returns while
`startEmbeddedPerl` waits for the socket. -/
structure StartEnv where
  now : Nat → Nat
  LogLevelDebug : Int
  LogLevelTrace : Int
  ExitCodeError : Int
  createTemp : Except String String
  stdoutPipe : Option String
  stderrPipe : Option String
  start : Except String Nat
  socketAppears : Bool
  waitErr : Nat → Option String
  wakeEarly : List Nat
  wakeDuringWait : List Nat

/-- How a function of the supervisor ends: it returns, or `cleanExit` ends the process. -/
inductive Outcome where
  | returned (s : EPNState)
  | exited (code : Int) (s : EPNState)
deriving DecidableEq, Repr

/-- The state at the end. -/
def Outcome.state : Outcome → EPNState
  | .returned s => s
  | .exited _ s => s

/-- Append events to the state. -/
def EPNState.emit (s : EPNState) (es : List Event) : EPNState :=
  { s with events := s.events ++ es }

/-- The three lines `fmt.Fprintf(os.Stderr, ...)`, `logger.Errorf(...)`, `cleanExit(ExitCodeError)`
that end `startEmbeddedPerl` on a startup error. -/
def startupError (env : StartEnv) (s : EPNState) (err : String) : Outcome :=
  .exited env.ExitCodeError
    (s.emit [.stderr ("Error: " ++ err), .log "error" ("epn startup error: " ++ err)])

/-- Function `stopEmbeddedPerl`. -/
def stopEmbeddedPerl (s : EPNState) : EPNState :=
  match s.ePNServerProcess with
  | none => s
  | some cmd =>
    match cmd.Process with
    | none => s
    | some pid =>
      let s := s.emit [.signal pid, .release pid]
      let s := { s with ePNServerProcess := none }
      let s := match s.ePNServerSocket with
        | some name => s.emit [.remove name]
        | none => s
      let s := { s with ePNServerSocket := none, ePNStarted := none }
      s.emit [.log "debug" "epn worker shutdown complete"]

/-- The goroutine `go func() { err := cmd.Wait(); ...; stopEmbeddedPerl() }()` of
`startEmbeddedPerl` for the process `pid`, from the moment `cmd.Wait()` returns: it logs the
error if there is one and calls `stopEmbeddedPerl` on the package variables as they are then. -/
def watcherReturns (env : StartEnv) (pid : Nat) (s : EPNState) : EPNState :=
  let s := { s with watching := s.watching.erase pid }
  let s := match env.waitErr pid with
    | some err => s.emit [.log "error" ("epn server errored: " ++ err ++ ": " ++ err)]
    | none => s
  stopEmbeddedPerl s

/-- The watching goroutines of the listed processes run, one after the other; a process that
is not watched is passed over. -/
def runWatchers (env : StartEnv) : List Nat → EPNState → EPNState
  | [], s => s
  | pid :: rest, s =>
    if pid ∈ s.watching then runWatchers env rest (watcherReturns env pid s)
    else runWatchers env rest s

/-- Function `startEmbeddedPerl`. The goroutine it starts for the new process is entered in
`watching` (event `watch`). While the function waits for the socket, which is where it blocks,
the goroutines of `env.wakeDuringWait` run. -/
def startEmbeddedPerl (env : StartEnv) (config : configurationStruct) (s : EPNState) : Outcome :=
  let s := { s with ePNServerProcess := none, ePNServerSocket := none }
  if !config.enableEmbeddedPerl then .returned s
  else
    let s := { s with ePNStarted := some { addr := s.heap, time := env.now s.heap },
                      heap := s.heap + 1 }
    let s := s.emit [.log "debug" "starting embedded perl worker"]
    let args : List String := []
    let args := if config.usePerlCache then args ++ ["-c"] else args
    let args := if config.debug ≥ env.LogLevelDebug then args ++ ["-v"] else args
    let args := if config.debug ≥ env.LogLevelTrace then args ++ ["-vv"] else args
    match env.createTemp with
    | .error err =>
      startupError env s ("failed to create epn socket: " ++ err ++ ": " ++ err)
    | .ok socketPath =>
      let args := args ++ [socketPath]
      let s := s.emit [.remove socketPath]
      let s := { s with ePNServerSocket := some socketPath }
      match env.stdoutPipe with
      | some err => startupError env s ("failed to connect to stdout: " ++ err ++ ": " ++ err)
      | none =>
        match env.stderrPipe with
        | some err => startupError env s ("failed to connect to stderr: " ++ err ++ ": " ++ err)
        | none =>
          match env.start with
          | .error err =>
            startupError env (s.emit [.start config.p1File args])
              ("failed to start epn worker: " ++ err ++ ": " ++ err)
          | .ok pid =>
            let s := s.emit [.start config.p1File args]
            let cmd : Cmd := { Path := config.p1File, Args := args, Process := some pid }
            let s := { s with ePNServerProcess := some cmd }
            let s := { s with watching := s.watching ++ [pid] }
            let s := s.emit [.watch pid]
            let s := runWatchers env env.wakeDuringWait s
            if env.socketAppears then .returned s
            else startupError env s "timeout (5s) while waiting for epn socket"

/-- Function `checkRestartEPNServer`. Between its two calls the goroutines of `env.wakeEarly`
run. -/
def checkRestartEPNServer (env : StartEnv) (config : configurationStruct) (s : EPNState) :
    Outcome :=
  if !config.enableEmbeddedPerl then .returned s
  else if s.ePNStarted.isSome then .returned s
  else
    let s := { s with ePNStarted := some { addr := s.heap, time := env.now s.heap },
                      heap := s.heap + 1 }
    let s := s.emit [.log "warn" "restarting epn server"]
    let s := stopEmbeddedPerl s
    let s := runWatchers env env.wakeEarly s
    startEmbeddedPerl env config s

/-! ## `epn.go`: connecting to the epn server -/

/-- A `net.Conn` to the epn server, by what happens on it: the error of `Write` if any, and
what the peer sends back. -/
structure Conn where
  writeErr : Option String
  reader : Reader

/-- What `ePNConnect` meets outside, by turn of its loop (the turn being the value of `retries`
on entry): the answer of `isRunning()`, the result of `net.Dial`, the clock, and what the other
goroutines do to the package variables while this one sleeps. -/
structure ConnectEnv where
  isRunning : Nat → Bool
  dial : Nat → String → Except String Conn
  now : Nat → Nat
  during : Nat → EPNState → EPNState

/-- The statement `time.Sleep(1 * time.Second)` in turn `i`: the sleep is recorded and the
package variables are what the other goroutines leave. -/
def sleepSecond (env : ConnectEnv) (i : Nat) (s : EPNState) : EPNState :=
  { (env.during i s) with events := s.events ++ [.sleep 1000] }

/-- Pointer comparison `s1 == s2` on `*time.Time`. -/
def samePtr (s1 s2 : Option TimePtr) : Bool :=
  s1.map TimePtr.addr == s2.map TimePtr.addr

/-- The test `retries%3 == 0 && s1 == s2 && s2 != nil &&
time.Now().After(s2.Add(ePNStartTimeout))`. -/
def staleServer (env : ConnectEnv) (i retries : Nat) (s1 s2 : Option TimePtr) : Bool :=
  retries % 3 == 0 && samePtr s1 s2 &&
    (match s2 with
     | none => false
     | some t => decide (env.now i > t.time + ePNStartTimeout))

/-- The loop of `ePNConnect`; `retries` is the local variable of that name. -/
def ePNConnectLoop (env : ConnectEnv) (s : EPNState) (retries : Nat) :
    Except String Conn × EPNState :=
  if !env.isRunning retries then (.error "worker is shuting down", s)
  else
    match s.ePNServerSocket with
    | none =>
      let s := sleepSecond env retries s
      if retries + 1 > ePNMaxRetries then
        (.error "epn socket connect failed: no socket exists", s)
      else ePNConnectLoop env s (retries + 1)
    | some socket =>
      let s1 := s.ePNStarted
      let s := s.emit [.dial socket]
      match env.dial retries socket with
      | .ok c => (.ok c, s)
      | .error err =>
        let s := s.emit [.log (if retries = 0 then "warn" else "debug")
          ("connecting to epn server failed (retry " ++ toString retries ++ "): " ++ err
            ++ ": " ++ err)]
        if retries + 1 > ePNMaxRetries then
          (.error ("epn socket connect failed: " ++ err ++ ": " ++ err), s)
        else
          let s := sleepSecond env retries s
          let s2 := s.ePNStarted
          let s :=
            if staleServer env retries (retries + 1) s1 s2 then
              { s.emit [.log "debug" "restarting epn server"] with ePNStarted := none }
            else s
          ePNConnectLoop env s (retries + 1)
termination_by ePNMaxRetries + 1 - retries
decreasing_by
  all_goals simp_wf
  all_goals omega

/-- Function `ePNConnect`. -/
def ePNConnect (env : ConnectEnv) (s : EPNState) : Except String Conn × EPNState :=
  ePNConnectLoop env s 0

/-- Number of one-second sleeps among the events. -/
def sleepCount (es : List Event) : Nat := es.count (.sleep 1000)

/-- Whether an event is a dial. -/
def Event.isDial : Event → Bool
  | .dial _ => true
  | _ => false

/-! ## `epn.go`: one exchange with the epn server -/

/-- A Go `float64`, by its bit pattern; the values are only copied, never computed with. -/
structure float64 where
  bits : Nat
deriving DecidableEq, Repr

/-- Type `answer`, declared elsewhere in the package: the fields the embedded functions read
or write, and `rest` for all its other fields, which they never touch. -/
structure answer (ρ : Type) where
  output : String
  returnCode : Int
  compileDuration : float64
  runUserDuration : float64
  active : String
  rest : ρ
deriving DecidableEq, Repr

/-- Type `command`, declared elsewhere in the package: the fields read here. -/
structure command where
  Command : String
  Args : List String
  Env : List (String × String)
deriving DecidableEq, Repr

/-- Type `receivedStruct`, declared elsewhere in the package: the fields read or written here;
`Cancel` tells whether a cancel function is registered. -/
structure receivedStruct where
  timeout : Int
  Cancel : Bool
  Canceled : Bool
deriving DecidableEq, Repr

/-- Type `ePNMsg`. -/
structure ePNMsg where
  Bin : String
  Args : List String
  Env : List (String × String)
  Timeout : Int
deriving DecidableEq, Repr

/-- Type `ePNRes`. -/
structure ePNRes where
  RC : Int
  Stdout : String
  RunDuration : float64
  CompileDuration : float64
  CPUUser : float64
deriving DecidableEq, Repr

/-- What `executeWithEmbeddedPerl` meets outside: `json.Marshal` on an `ePNMsg`,
`json.Unmarshal` of the response into a fresh `ePNRes`, the surroundings of `ePNConnect`, and
the buffer space of `ePNReadResponse`. -/
structure ExecEnv where
  marshal : ePNMsg → Except String (List Byte)
  unmarshal : List Byte → Except String ePNRes
  connect : ConnectEnv
  avail : Nat → Nat

/-- What `executeWithEmbeddedPerl` leaves: the error it returns (`none` for nil), the objects
behind its two pointer arguments, and the supervisor state with the events. -/
structure ExecResult (ρ : Type) where
  err : Option String
  result : answer ρ
  received : receivedStruct
  state : EPNState

/-- Function `executeWithEmbeddedPerl`. The deferred `c.Close()` is the event `closeConn` at
every return after the connection is made. -/
def executeWithEmbeddedPerl {ρ : Type} (env : ExecEnv) (cmd : command) (result : answer ρ)
    (received : receivedStruct) (s : EPNState) : ExecResult ρ :=
  match env.marshal { Bin := cmd.Command, Args := cmd.Args, Env := cmd.Env,
                      Timeout := received.timeout } with
  | .error err =>
    { err := some ("json error: " ++ err ++ ": " ++ err), result := result,
      received := received, state := s }
  | .ok msg =>
    let msg := msg ++ [10]
    match ePNConnect env.connect s with
    | (.error err, s) =>
      { err := some ("connecting to epn server failed: " ++ err ++ ": " ++ err),
        result := result, received := received, state := s }
    | (.ok c, s) =>
      let received := { received with Cancel := true }
      let s := s.emit [.write msg]
      match c.writeErr with
      | some err =>
        { err := some ("sending to epn server failed: " ++ err ++ ": " ++ err),
          result := result, received := received, state := s.emit [.closeConn] }
      | none =>
        match ePNReadResponse env.avail c.reader with
        | .error err =>
          { err := some ("reading epn response failed: " ++ err ++ ": " ++ err),
            result := result, received := received, state := s.emit [.closeConn] }
        | .ok buf =>
          let received := { received with Cancel := false }
          match env.unmarshal buf with
          | .error err =>
            { err := some ("json unpacking failed: " ++ err ++ ": " ++ err),
              result := result, received := received, state := s.emit [.closeConn] }
          | .ok res =>
            let result := { result with output := res.Stdout }
            let result := { result with returnCode := res.RC }
            let result := { result with compileDuration := res.CompileDuration }
            let result := { result with runUserDuration := res.CPUUser }
            { err := none, result := result, received := received,
              state := s.emit [.closeConn] }

/-! ## `worker.go`: delivery of a result -/

/-- A `*client.Client`, by an identifier. -/
abbrev Client := Nat

/-- Function `sendAnswer`, declared elsewhere in the package, as the delivery loops see it: for
the call number, the client passed in, the result, the address and the encryption flag, the
client and the error it returns. It reads the result and does not write to it. -/
abbrev SendAnswer (ρ : Type) :=
  Nat → Option Client → answer ρ → String → Bool → Option Client × Option String

/-- The fields of `worker` that the delivery loops read or write. -/
structure worker where
  config : configurationStruct
  client : Option Client
  dupclient : Option Client
deriving DecidableEq, Repr

/-- The variables of a delivery loop: the client of the worker for this destination list, the
result object behind the pointer `result`, the local variables `sendSuccess` and `err`, the
number of calls of `sendAnswer` so far, and the events. -/
structure SendState (ρ : Type) where
  client : Option Client
  result : answer ρ
  sendSuccess : Bool
  err : Option String
  calls : Nat
  events : List Event

/-- The loop `for _, address := range worker.config.server` of `SendResult`. -/
def sendPass {ρ : Type} (sendAnswer : SendAnswer ρ) (encryption : Bool) :
    List String → SendState ρ → SendState ρ
  | [], st => st
  | address :: rest, st =>
    match sendAnswer st.calls st.client st.result address encryption with
    | (c, none) =>
      { st with client := c, sendSuccess := true, err := none, calls := st.calls + 1,
                events := st.events ++ [.send address] }
    | (c, some e) =>
      let st := { st with err := some e, calls := st.calls + 1,
                          events := st.events ++ [.send address] }
      let st := match c with
        | some cl => { st with events := st.events ++ [.close cl] }
        | none => st
      sendPass sendAnswer encryption rest st

/-- The outer loop `for` of `SendResult`; `retries` is the local variable of that name. -/
def SendResultLoop {ρ : Type} (sendAnswer : SendAnswer ρ) (config : configurationStruct)
    (st : SendState ρ) (retries : Nat) : SendState ρ :=
  let st := sendPass sendAnswer config.encryption config.server { st with err := none }
  if st.sendSuccess ∨ retries > 120 then st
  else
    let st :=
      if retries = 0 ∧ st.err.isSome then
        { st with events := st.events ++ [.log "error"
            ("failed to send back result, will continue to retry for 2 minutes: "
              ++ st.err.getD "")] }
      else st
    let st := { st with events := st.events ++ [.sleep 1000] }
    SendResultLoop sendAnswer config st (retries + 1)
termination_by 121 - retries
decreasing_by
  all_goals simp_wf
  all_goals omega

/-- Function `SendResult`: the worker and the result object afterwards, the number of calls of
`sendAnswer` made and the events. -/
def SendResult {ρ : Type} (sendAnswer : SendAnswer ρ) (w : worker) (result : answer ρ) :
    worker × SendState ρ :=
  let st := SendResultLoop sendAnswer w.config
    { client := w.client, result := result, sendSuccess := false, err := none, calls := 0,
      events := [] } 0
  ({ w with client := st.client }, st)

/-- The loop `for _, dupAddress := range worker.config.dupserver` of `SendResultDup`. -/
def sendDupPass {ρ : Type} (sendAnswer : SendAnswer ρ) (config : configurationStruct) :
    List String → SendState ρ → SendState ρ
  | [], st => st
  | dupAddress :: rest, st =>
    let st :=
      if config.dupResultsArePassive then
        { st with result := { st.result with active := "passive" } }
      else st
    match sendAnswer st.calls st.client st.result dupAddress config.encryption with
    | (c, none) =>
      { st with client := c, sendSuccess := true, err := none, calls := st.calls + 1,
                events := st.events ++ [.send dupAddress] }
    | (c, some e) =>
      let st := { st with err := some e, calls := st.calls + 1,
                          events := st.events ++ [.send dupAddress] }
      let st := match c with
        | some cl => { st with events := st.events ++ [.close cl] }
        | none => st
      sendDupPass sendAnswer config rest st

/-- The outer loop `for` of `SendResultDup`. -/
def SendResultDupLoop {ρ : Type} (sendAnswer : SendAnswer ρ) (config : configurationStruct)
    (st : SendState ρ) (retries : Nat) : SendState ρ :=
  let st := sendDupPass sendAnswer config config.dupserver { st with err := none }
  if st.sendSuccess ∨ retries > 120 then st
  else
    let st :=
      if retries = 0 ∧ st.err.isSome then
        { st with events := st.events ++ [.log "error"
            ("failed to send back result (to dupserver), will continue to retry for 2 minutes: "
              ++ st.err.getD "")] }
      else st
    let st := { st with events := st.events ++ [.sleep 1000] }
    SendResultDupLoop sendAnswer config st (retries + 1)
termination_by 121 - retries
decreasing_by
  all_goals simp_wf
  all_goals omega

/-- Function `SendResultDup`. -/
def SendResultDup {ρ : Type} (sendAnswer : SendAnswer ρ) (w : worker) (result : answer ρ) :
    worker × SendState ρ :=
  if w.config.dupserver.length = 0 then
    (w, { client := w.dupclient, result := result, sendSuccess := false, err := none,
          calls := 0, events := [] })
  else
    let st := SendResultDupLoop sendAnswer w.config
      { client := w.dupclient, result := result, sendSuccess := false, err := none, calls := 0,
        events := [] } 0
    ({ w with dupclient := st.client }, st)

/-- The deliveries and the waits among the events, in order. -/
def deliveryTrace : List Event → List Event
  | [] => []
  | .send a :: es => .send a :: deliveryTrace es
  | .sleep ms :: es => .sleep ms :: deliveryTrace es
  | _ :: es => deliveryTrace es

/-- A run of `n + 1` passes over the destination list, each pass one delivery to every
destination in the configured order, with a one-second wait between two passes. -/
def passes (server : List String) : Nat → List Event
  | 0 => server.map Event.send
  | n + 1 => server.map Event.send ++ [.sleep 1000] ++ passes server n

/-! ## Go standard library: `strings.Split`, `strings.Fields`, `strconv.Atoi`, `int` -/

/-- Go `strings.Split(s, "\n")`. -/
def splitNewline : GoString → List GoString
  | [] => [[]]
  | c :: cs =>
    if c = '\n' then [] :: splitNewline cs
    else
      match splitNewline cs with
      | [] => [[c]]
      | l :: ls => (c :: l) :: ls

/-- The scan of `strings.Fields`; `cur` holds, last character first, the field begun and not
yet closed. -/
def fieldsFrom : GoString → GoString → List GoString
  | [], cur => if cur = [] then [] else [cur.reverse]
  | c :: cs, cur =>
    if isSpace c then
      if cur = [] then fieldsFrom cs [] else cur.reverse :: fieldsFrom cs []
    else fieldsFrom cs (c :: cur)

/-- Go `strings.Fields`: the maximal runs of characters that are not white space. -/
def Fields (s : GoString) : List GoString := fieldsFrom s []

/-- Width of the Go type `int` (a 64-bit platform). -/
def intSize : Nat := 64

/-- Go `int` arithmetic: the representative of `x` in the range of `int`. -/
def wrapInt (x : Int) : Int := (x + 2 ^ (intSize - 1)) % 2 ^ intSize - 2 ^ (intSize - 1)

/-- The two errors of `strconv.Atoi`: `strconv.ErrSyntax` and `strconv.ErrRange`. -/
inductive NumError where
  | ErrSyntax
  | ErrRange
deriving DecidableEq, Repr

/-- The digit loop of Go `strconv.ParseUint` in base 10: a character that is not an ASCII digit
is a syntax error, a value beyond the unsigned range is a range error, whichever comes first
from the left. -/
def parseUint : GoString → Nat → Except NumError Nat
  | [], n => .ok n
  | c :: cs, n =>
    if 48 ≤ c.toNat ∧ c.toNat ≤ 57 then
      if n ≥ (2 ^ intSize - 1) / 10 + 1 then .error .ErrRange
      else if n * 10 + (c.toNat - 48) > 2 ^ intSize - 1 then .error .ErrRange
      else parseUint cs (n * 10 + (c.toNat - 48))
    else .error .ErrSyntax

/-- The digits of `strconv.Atoi` after the sign is taken off, and the range of `int`. -/
def atoiDigits (neg : Bool) (ds : GoString) : Except NumError Int :=
  match ds with
  | [] => .error .ErrSyntax
  | _ :: _ =>
    match parseUint ds 0 with
    | .error e => .error e
    | .ok n =>
      if neg then
        if n ≤ 2 ^ (intSize - 1) then .ok (-(n : Int)) else .error .ErrRange
      else
        if n < 2 ^ (intSize - 1) then .ok (n : Int) else .error .ErrRange

/-- Go `strconv.Atoi`: an optional sign, then at least one decimal digit, the value in the
range of `int`. -/
def Atoi (s : GoString) : Except NumError Int :=
  match s with
  | [] => .error .ErrSyntax
  | c :: cs =>
    if c = '-' then atoiDigits true cs
    else if c = '+' then atoiDigits false cs
    else atoiDigits false (c :: cs)

/-! ## `statusAdmin.go` -/

/-- Type `queue`. -/
structure queue where
  Name : GoString
  Total : Int
  Running : Int
  Waiting : Int
  AvailWorker : Int
deriving DecidableEq, Repr

/-- The errors `getGearmanServerData` returns: the one of `sendCmd2gearmandAdmin` passed on, or
"the recieved data is not in the right format" around the error of `strconv.Atoi`. -/
inductive AdminError where
  | send (msg : String)
  | format (e : NumError)
deriving DecidableEq, Repr

/-- The loop `for _, line := range lines` of `getGearmanServerData`, `queueList` being the
list built so far. The test `parts[0] == "dummy" && parts[1] == ""` is kept as written. -/
def parseLines : List GoString → List queue → List queue × Option AdminError
  | [], queueList => (queueList, none)
  | line :: lines, queueList =>
    match Fields line with
    | p0 :: p1 :: p2 :: p3 :: _ =>
      if p0 = "dummy".toList ∧ p1 = [] then parseLines lines queueList
      else
        match Atoi p1 with
        | .error e => ([], some (.format e))
        | .ok totalInt =>
          match Atoi p2 with
          | .error e => ([], some (.format e))
          | .ok runningInt =>
            match Atoi p3 with
            | .error e => ([], some (.format e))
            | .ok availWorkerInt =>
              parseLines lines (queueList ++ [{
                Name := p0
                Total := totalInt
                Running := runningInt
                AvailWorker := availWorkerInt
                Waiting := wrapInt (totalInt - runningInt) }])
    | _ => parseLines lines queueList

/-- Function `getGearmanServerData`; the argument is what
`sendCmd2gearmandAdmin("status\nversion\n", hostname, port)` returned. -/
def getGearmanServerData (sent : Except String GoString) : List queue × Option AdminError :=
  match sent with
  | .error err => ([], some (.send err))
  | .ok gearmanStatus =>
    if gearmanStatus = [] then ([], none)
    else parseLines (splitNewline gearmanStatus) []

/-- The queue a line stands for, in the words of the specification: a line of fewer than 4
fields stands for none; otherwise the name is field 1 and total, running and available workers
are the integers of fields 2, 3 and 4, waiting being total minus running (in `int`). -/
def queueOfLine (line : GoString) : Option queue :=
  match Fields line with
  | f1 :: f2 :: f3 :: f4 :: _ =>
    match Atoi f2, Atoi f3, Atoi f4 with
    | .ok total, .ok running, .ok avail =>
      some { Name := f1, Total := total, Running := running, AvailWorker := avail,
             Waiting := wrapInt (total - running) }
    | _, _, _ => none
  | _ => none

/-- A line of at least 4 fields whose 2nd, 3rd or 4th field is not an integer of type `int`. -/
def Malformed (line : GoString) : Prop :=
  4 ≤ (Fields line).length ∧ queueOfLine line = none

/-- Whether a line is malformed can be computed. -/
instance instDecidableMalformed (line : GoString) : Decidable (Malformed line) :=
  inferInstanceAs (Decidable (4 ≤ (Fields line).length ∧ queueOfLine line = none))

/-- Sample configuration: embedded perl enabled, not implicit. -/
def sampleConfig : configurationStruct :=
  { enableEmbeddedPerl := true, useEmbeddedPerlImplicitly := false, usePerlCache := false,
    debug := 0, p1File := "p1.pl", server := ["s1", "s2"], dupserver := ["d1"],
    dupResultsArePassive := true, encryption := false }

/-- Sample surroundings of `ePNConnect`: the worker keeps running, nothing else touches the
package variables, every dial is refused. -/
def sampleConnectEnv : ConnectEnv :=
  { isRunning := fun _ => true, dial := fun _ _ => .error "connection refused",
    now := fun _ => 0, during := fun _ s => s }

/-- Sample supervisor state: nothing started, no socket known. -/
def sampleIdleState : EPNState :=
  { ePNServerProcess := none, ePNServerSocket := none, ePNStarted := none, heap := 0,
    watching := [], events := [] }

/-- Sample supervisor state: the server with process 41, started by `startEmbeddedPerl` and
watched by its goroutine, runs, but its generation marker has been cleared. -/
def sampleStaleState : EPNState :=
  { ePNServerProcess := some { Path := "p1.pl", Args := ["/tmp/old.socket"], Process := some 41 },
    ePNServerSocket := some "/tmp/old.socket", ePNStarted := none, heap := 3,
    watching := [41], events := [] }

/-- Sample surroundings of `startEmbeddedPerl`: everything succeeds and no watching goroutine
wakes during the call. -/
def sampleStartEnv : StartEnv :=
  { now := fun a => 1000 * a, LogLevelDebug := 1, LogLevelTrace := 2, ExitCodeError := 1,
    createTemp := .ok "/tmp/new.socket", stdoutPipe := none, stderrPipe := none,
    start := .ok 42, socketAppears := true, waitErr := fun _ => none,
    wakeEarly := [], wakeDuringWait := [] }

/-- Sample surroundings of a restart: the new command starts, and while `startEmbeddedPerl`
waits for the socket the interrupted old process 41 exits, so that `cmd.Wait()` returns in its
goroutine; the socket of the new server is not seen before the timeout. -/
def sampleRaceEnv : StartEnv :=
  { sampleStartEnv with socketAppears := false, waitErr := fun _ => some "signal: interrupt",
                        wakeDuringWait := [41] }

/-- Sample `sendAnswer`: every delivery fails, no client is returned. -/
def sendAnswerFails : SendAnswer Unit := fun _ _ _ _ _ => (none, some "connection refused")

/-- Sample `sendAnswer`: every delivery succeeds with client 7. -/
def sendAnswerSucceeds : SendAnswer Unit := fun _ _ _ _ _ => (some 7, none)

/-- Sample worker: servers `s1`, `s2`, duplicate server `d1`, passive marking on. -/
def sampleWorker : worker := { config := sampleConfig, client := none, dupclient := none }

/-- Sample result of an active check. -/
def sampleResult : answer Unit :=
  { output := "OK", returnCode := 0, compileDuration := { bits := 0 },
    runUserDuration := { bits := 0 }, active := "active", rest := () }

/-- Sample response of the epn server, with the run duration left open. -/
def sampleEPNRes (runDuration : float64) : ePNRes :=
  { RC := 2, Stdout := "CRITICAL - disk full", RunDuration := runDuration,
    CompileDuration := { bits := 7 }, CPUUser := { bits := 9 } }

/-- Sample connection: the write succeeds, the peer sends three bytes and closes. -/
def sampleConn : Conn :=
  { writeErr := none, reader := { chunks := [[123], [125]], last := [10], final := .EOF } }

/-- Sample surroundings of `executeWithEmbeddedPerl`: the first dial succeeds and the response
decodes to the given `ePNRes`. -/
def sampleExecEnv (res : ePNRes) : ExecEnv :=
  { marshal := fun _ => .ok [123, 125],
    unmarshal := fun _ => .ok res,
    connect := { isRunning := fun _ => true, dial := fun _ _ => .ok sampleConn,
                 now := fun _ => 0, during := fun _ s => s },
    avail := fun _ => 0 }

/-- Sample supervisor state: the epn server runs and its socket is known. -/
def sampleRunningState : EPNState :=
  { ePNServerProcess := some { Path := "p1.pl", Args := ["/tmp/epn.socket"], Process := some 41 },
    ePNServerSocket := some "/tmp/epn.socket", ePNStarted := some { addr := 0, time := 0 },
    heap := 1, watching := [41], events := [] }

/-- Sample command. -/
def sampleCommand : command := { Command := "/plugins/check_disk.pl", Args := ["-w", "10"], Env := [] }

/-- Sample job data. -/
def sampleReceived : receivedStruct := { timeout := 60, Cancel := false, Canceled := false }

/-! ## Theorems -/

/-! ### Strings -/

theorem scanLine_short (raw : GoString) (h : byteLen raw < MaxScanTokenSize) :
    scanLine raw = some (dropCR raw) := by
  simp [scanLine, h]

theorem scanLine_long (raw : GoString) (h : MaxScanTokenSize ≤ byteLen raw) :
    scanLine raw = none := by
  have : ¬ byteLen raw < MaxScanTokenSize := by omega
  simp [scanLine, this]

theorem detectLoop_first (config : configurationStruct) (first : GoString)
    (rest : List GoString) (hs : byteLen first < MaxScanTokenSize)
    (h : Contains (dropCR first) "/bin/perl".toList = true) :
    detectLoop config 0 (first :: rest) = detectLoop config 1 rest := by
  rw [detectLoop, scanLine_short first hs]
  simp only [h]
  rfl

/-- A line too long for the scanner ends the scan: the configured default is returned. -/
theorem detectLoop_long_line (config : configurationStruct) (n : Nat) (raw : GoString)
    (rest : List GoString) (hn : n < 10) (h : MaxScanTokenSize ≤ byteLen raw) :
    detectLoop config n (raw :: rest) = .ok config.useEmbeddedPerlImplicitly := by
  rw [detectLoop, scanLine_long raw h]
  simp [hn]

theorem byteLen_replicate (n : Nat) : byteLen (List.replicate n 'x') = n := by
  induction n with
  | zero => rfl
  | succ n ih =>
    rw [List.replicate_succ, byteLen, ih]
    have : utf8Len 'x' = 1 := by decide
    omega

/-- A first line of 70000 bytes without `/bin/perl`, and a perl file whose second line has
70000 bytes and whose third is a `+` directive: the scan ends at the long line and the result is
the configured default. -/
theorem detectFileUsesEmbeddedPerl_long_line (config : configurationStruct) :
    detectFileUsesEmbeddedPerl (some [List.replicate 70000 'x']) config
      = .ok config.useEmbeddedPerlImplicitly ∧
    detectFileUsesEmbeddedPerl
        (some ["#!/usr/bin/perl".toList, List.replicate 70000 'x', "# nagios:+".toList]) config
      = .ok config.useEmbeddedPerlImplicitly := by
  have hlong : MaxScanTokenSize ≤ byteLen (List.replicate 70000 'x') := by
    rw [byteLen_replicate]; decide
  constructor
  · rw [detectFileUsesEmbeddedPerl]
    exact detectLoop_long_line config 0 _ _ (by decide) hlong
  · rw [detectFileUsesEmbeddedPerl,
      detectLoop_first config "#!/usr/bin/perl".toList _ (by decide) (by decide)]
    exact detectLoop_long_line config 1 _ _ (by decide) hlong

/-- A later prefix is tested against what is left of the line after an earlier one. -/
theorem detectFileUsesEmbeddedPerl_chained_prefixes :
    detectFileUsesEmbeddedPerl
      (some ["#!/usr/bin/perl".toList, "# nagios:# naemon: + x".toList]) sampleConfig
      = .ok true := by
  decide

/-- C10: the code faults. On a perl file whose second line is a bare `# nagios:` prefix, or a
prefix followed by white space only, the trimmed remainder is empty and `line[0:1]` is out of
range: the function does not return a boolean. -/
theorem detectFileUsesEmbeddedPerl_faults_on_bare_prefix (config : configurationStruct) :
    detectFileUsesEmbeddedPerl (some ["#!/usr/bin/perl".toList, "# nagios:".toList]) config
      = .error "slice bounds out of range [:1] with length 0" ∧
    detectFileUsesEmbeddedPerl (some ["#!/usr/bin/perl".toList, "# icinga:  \t".toList]) config
      = .error "slice bounds out of range [:1] with length 0" :=
  ⟨rfl, rfl⟩

/-! ### The classification cache -/

theorem fieldsFrom_ne_nil (s : GoString) :
    ∀ cur : GoString, ∀ f ∈ fieldsFrom s cur, f ≠ [] := by
  induction s with
  | nil =>
    intro cur f hf
    rw [fieldsFrom] at hf
    by_cases hcur : cur = []
    · simp [hcur] at hf
    · simp only [hcur, if_false, List.mem_singleton] at hf
      rw [hf]
      simpa using hcur
  | cons c cs ih =>
    intro cur f hf
    rw [fieldsFrom] at hf
    by_cases hc : isSpace c = true
    · simp only [hc, if_true] at hf
      by_cases hcur : cur = []
      · simp only [hcur, if_true] at hf
        exact ih [] f hf
      · simp only [hcur, if_false, List.mem_cons] at hf
        rcases hf with rfl | hf
        · simpa using hcur
        · exact ih [] f hf
    · simp only [hc, if_false] at hf
      exact ih (c :: cur) f hf

theorem fields_ne_nil (s : GoString) : ∀ f ∈ Fields s, f ≠ [] :=
  fieldsFrom_ne_nil s []

theorem parseLines_short (l : GoString) (lines : List GoString) (acc : List queue)
    (h : (Fields l).length < 4) : parseLines (l :: lines) acc = parseLines lines acc := by
  rw [parseLines]
  split
  · next p0 p1 p2 p3 rest hF =>
    rw [hF] at h
    simp only [List.length_cons] at h
    omega
  · rfl

theorem queueOfLine_short (l : GoString) (h : (Fields l).length < 4) : queueOfLine l = none := by
  rw [queueOfLine]
  split
  · next f1 f2 f3 f4 rest hF =>
    rw [hF] at h
    simp only [List.length_cons] at h
    omega
  · rfl

/-- One turn of the parser loop on a line that is not malformed. -/
theorem parseLines_wellformed (l : GoString) (lines : List GoString) (acc : List queue)
    (h : ¬ Malformed l) :
    parseLines (l :: lines) acc = parseLines lines (acc ++ (queueOfLine l).toList) := by
  by_cases hlen : (Fields l).length < 4
  · rw [parseLines_short l lines acc hlen, queueOfLine_short l hlen]
    simp
  · have hq : queueOfLine l ≠ none := fun hq => h ⟨by omega, hq⟩
    rw [parseLines]
    rw [queueOfLine] at hq ⊢
    split
    · next p0 p1 p2 p3 rest hF =>
      have hp1 : p1 ≠ [] := fields_ne_nil l p1 (by rw [hF]; simp)
      simp only [hp1, and_false, if_false]
      rw [hF] at hq
      simp only at hq
      cases h1 : Atoi p1 with
      | error e => simp [h1] at hq
      | ok t =>
        cases h2 : Atoi p2 with
        | error e => simp [h1, h2] at hq
        | ok r =>
          cases h3 : Atoi p3 with
          | error e => simp [h1, h2, h3] at hq
          | ok a => simp
    · next hno =>
      exfalso
      apply hq
      split
      · next f1 f2 f3 f4 rest hF => exact absurd hF (hno f1 f2 f3 f4 rest)
      · rfl

theorem parseLines_all_wellformed (lines : List GoString) :
    ∀ acc : List queue, (∀ l ∈ lines, ¬ Malformed l) →
      parseLines lines acc = (acc ++ lines.filterMap queueOfLine, none) := by
  induction lines with
  | nil => intro acc _; simp [parseLines]
  | cons l lines ih =>
    intro acc hall
    rw [parseLines_wellformed l lines acc (hall l (by simp)),
      ih _ (fun x hx => hall x (by simp [hx]))]
    cases hq : queueOfLine l with
    | none => simp [List.filterMap_cons, hq]
    | some q => simp [List.filterMap_cons, hq]

/-- One turn of the parser loop on a malformed line. -/
theorem parseLines_malformed (l : GoString) (h : Malformed l) :
    ∃ e, ∀ (lines : List GoString) (acc : List queue),
      parseLines (l :: lines) acc = ([], some (.format e)) := by
  obtain ⟨hlen, hq⟩ := h
  rw [queueOfLine] at hq
  cases hF : Fields l with
  | nil => rw [hF] at hlen; simp at hlen
  | cons p0 t1 =>
    cases t1 with
    | nil => rw [hF] at hlen; simp at hlen
    | cons p1 t2 =>
      cases t2 with
      | nil => rw [hF] at hlen; simp at hlen
      | cons p2 t3 =>
        cases t3 with
        | nil => rw [hF] at hlen; simp at hlen
        | cons p3 rest =>
          have hp1 : p1 ≠ [] := fields_ne_nil l p1 (by rw [hF]; simp)
          rw [hF] at hq
          simp only at hq
          cases h1 : Atoi p1 with
          | error e =>
            refine ⟨e, fun lines acc => ?_⟩
            rw [parseLines, hF]
            simp only [hp1, and_false, if_false, h1]
          | ok t =>
            cases h2 : Atoi p2 with
            | error e =>
              refine ⟨e, fun lines acc => ?_⟩
              rw [parseLines, hF]
              simp only [hp1, and_false, if_false, h1, h2]
            | ok r =>
              cases h3 : Atoi p3 with
              | error e =>
                refine ⟨e, fun lines acc => ?_⟩
                rw [parseLines, hF]
                simp only [hp1, and_false, if_false, h1, h2, h3]
              | ok a => simp [h1, h2, h3] at hq

theorem parseLines_some_malformed (lines : List GoString) :
    ∀ acc : List queue, (∃ l ∈ lines, Malformed l) →
      ∃ e, parseLines lines acc = ([], some (.format e)) := by
  induction lines with
  | nil => intro acc h; obtain ⟨l, hl, _⟩ := h; simp at hl
  | cons l lines ih =>
    intro acc h
    by_cases hm : Malformed l
    · obtain ⟨e, he⟩ := parseLines_malformed l hm
      exact ⟨e, he lines acc⟩
    · rw [parseLines_wellformed l lines acc hm]
      obtain ⟨x, hx, hxm⟩ := h
      simp only [List.mem_cons] at hx
      rcases hx with rfl | hx
      · exact absurd hxm hm
      · exact ih _ ⟨x, hx, hxm⟩

theorem parseLines_skip_short (l : GoString) (post : List GoString)
    (h : (Fields l).length < 4) (pre : List GoString) :
    ∀ acc : List queue, parseLines (pre ++ l :: post) acc = parseLines (pre ++ post) acc := by
  induction pre with
  | nil => intro acc; exact parseLines_short l post acc h
  | cons x pre ih =>
    intro acc
    by_cases hm : Malformed x
    · obtain ⟨e, he⟩ := parseLines_malformed x hm
      rw [List.cons_append, List.cons_append, he, he]
    · rw [List.cons_append, List.cons_append, parseLines_wellformed x _ acc hm,
        parseLines_wellformed x _ acc hm]
      exact ih _

theorem wrapInt_of_inRange (x : Int) (h1 : -(2 ^ 63 : Int) ≤ x) (h2 : x < (2 ^ 63 : Int)) :
    wrapInt x = x := by
  simp only [wrapInt, intSize]
  omega

theorem queueOfLine_waiting (l : GoString) (q : queue) (h : queueOfLine l = some q) :
    q.Waiting = wrapInt (q.Total - q.Running) := by
  rw [queueOfLine] at h
  split at h
  · split at h
    · simp only [Option.some.injEq] at h
      rw [← h]
    · exact Option.noConfusion h
  · exact Option.noConfusion h

/-- C5 (as amended): the line parser of `getGearmanServerData` skips, without error, every line
of fewer than 4 white-space separated fields, wherever it stands; when every remaining line has
integers (of Go type `int`) as 2nd, 3rd and 4th field, the result is, in input order, one queue
per remaining line with Name = field 1, Total = field 2, Running = field 3, AvailWorker =
field 4 and Waiting = Total - Running (in `int` arithmetic, the exact difference whenever it is
in range) and no error; when some remaining line has a 2nd, 3rd or 4th field that is not such an
integer, the result is the format error and no queue at all; and the input
`"q1\t5\t2\t3\nq2\t0\t0\t0\n"` gives exactly the two queues of the specification. -/
theorem getGearmanServerData_parse (text : GoString) :
    (∀ (pre post : List GoString) (l : GoString) (acc : List queue),
      (Fields l).length < 4 →
      parseLines (pre ++ l :: post) acc = parseLines (pre ++ post) acc) ∧
    ((∀ l ∈ splitNewline text, ¬ Malformed l) →
      getGearmanServerData (.ok text) = ((splitNewline text).filterMap queueOfLine, none)) ∧
    ((∃ l ∈ splitNewline text, Malformed l) →
      ∃ e, getGearmanServerData (.ok text) = ([], some (.format e))) ∧
    (∀ (l : GoString) (q : queue), queueOfLine l = some q →
      q.Waiting = wrapInt (q.Total - q.Running) ∧
      (-(2 ^ 63 : Int) ≤ q.Total - q.Running → q.Total - q.Running < (2 ^ 63 : Int) →
        q.Waiting = q.Total - q.Running)) ∧
    getGearmanServerData (.ok "q1\t5\t2\t3\nq2\t0\t0\t0\n".toList) =
      ([{ Name := "q1".toList, Total := 5, Running := 2, Waiting := 3, AvailWorker := 3 },
        { Name := "q2".toList, Total := 0, Running := 0, Waiting := 0, AvailWorker := 0 }],
       none) := by
  refine ⟨?_, ?_, ?_, ?_, by decide⟩
  · intro pre post l acc h
    exact parseLines_skip_short l post h pre acc
  · intro hall
    rw [getGearmanServerData]
    by_cases ht : text = []
    · subst ht
      decide
    · simp only [ht, if_false]
      rw [parseLines_all_wellformed _ [] hall]
      simp
  · intro hex
    rw [getGearmanServerData]
    by_cases ht : text = []
    · subst ht
      exfalso
      obtain ⟨l, hl, hm⟩ := hex
      simp only [splitNewline, List.mem_singleton] at hl
      subst hl
      exact absurd hm (by decide)
    · simp only [ht, if_false]
      exact parseLines_some_malformed _ [] hex
  · intro l q hq
    have hw := queueOfLine_waiting l q hq
    exact ⟨hw, fun h1 h2 => by rw [hw]; exact wrapInt_of_inRange _ h1 h2⟩

/-- Witness of C5 as amended: a text with a short line parses to one queue; a text with a
malformed line gives the format error. -/
theorem getGearmanServerData_parse_witness :
    getGearmanServerData (.ok "q1 5 2 3\nversion 1.1\n".toList) =
      ((splitNewline "q1 5 2 3\nversion 1.1\n".toList).filterMap queueOfLine, none) ∧
    (∃ e, getGearmanServerData (.ok "q1 5 2 3\nq2 x 0 0\n".toList) = ([], some (.format e))) ∧
    parseLines (["q1 5 2 3".toList] ++ "version 1.1".toList :: ["q2 x 0 0".toList]) [] =
      parseLines (["q1 5 2 3".toList] ++ ["q2 x 0 0".toList]) [] :=
  ⟨(getGearmanServerData_parse "q1 5 2 3\nversion 1.1\n".toList).2.1 (by decide),
   (getGearmanServerData_parse "q1 5 2 3\nq2 x 0 0\n".toList).2.2.1
     ⟨"q2 x 0 0".toList, by decide, by decide⟩,
   (getGearmanServerData_parse []).1 ["q1 5 2 3".toList] ["q2 x 0 0".toList]
     "version 1.1".toList [] (by decide)⟩

/-- C5 (as stated) fails: in the text `"q1 5 2 3\nq2 x 0 0\n"` the line `q1 5 2 3` has four
fields of which the 2nd, 3rd and 4th are integers, yet no queue is yielded for it: the later
line `q2 x 0 0` makes the parser return an error and an empty list. -/
theorem getGearmanServerData_drops_queues_on_error :
    "q1 5 2 3".toList ∈ splitNewline "q1 5 2 3\nq2 x 0 0\n".toList ∧
    queueOfLine "q1 5 2 3".toList =
      some { Name := "q1".toList, Total := 5, Running := 2, Waiting := 3, AvailWorker := 3 } ∧
    getGearmanServerData (.ok "q1 5 2 3\nq2 x 0 0\n".toList) =
      ([], some (.format .ErrSyntax)) :=
  ⟨by decide, by decide, by decide⟩

/-! ### Reading the response -/

theorem Read_none (conn conn2 : Reader) (k : Nat) (data : List Byte) (hk : 0 < k)
    (h : conn.Read k = (data, none, conn2)) :
    conn2.pending < conn.pending ∧ conn2.final = conn.final ∧ data ++ conn2.all = conn.all := by
  simp only [Reader.Read] at h
  split at h
  · rename_i c cs hc
    split at h
    · simp only [Prod.mk.injEq, true_and] at h
      obtain ⟨h1, h2⟩ := h
      subst h1 h2
      simp [Reader.pending, Reader.all, hc]
    · simp only [Prod.mk.injEq, true_and] at h
      obtain ⟨h1, h2⟩ := h
      subst h1 h2
      simp only [Reader.pending, Reader.all, hc, List.map_cons, List.sum_cons, List.length_drop,
        List.flatten_cons]
      refine ⟨by omega, trivial, ?_⟩
      rw [← List.append_assoc, ← List.append_assoc, List.take_append_drop]
  · rename_i hc
    split at h
    · simp at h
    · simp only [Prod.mk.injEq, true_and] at h
      obtain ⟨h1, h2⟩ := h
      subst h1 h2
      simp only [Reader.pending, Reader.all, hc, List.map_nil, List.sum_nil, List.length_drop,
        List.flatten_nil, List.nil_append, List.take_append_drop]
      refine ⟨by omega, trivial, trivial⟩

theorem Read_some (conn conn2 : Reader) (k : Nat) (data : List Byte) (err : ReadError)
    (h : conn.Read k = (data, some err, conn2)) :
    conn.chunks = [] ∧ data = conn.last ∧ err = conn.final ∧ conn2.all = [] ∧
      conn2.final = conn.final ∧ conn2.pending = 0 := by
  simp only [Reader.Read] at h
  split at h
  · split at h <;> simp at h
  · rename_i hc
    split at h
    · simp only [Prod.mk.injEq, Option.some.injEq] at h
      obtain ⟨h1, h2, h3⟩ := h
      subst h1 h2 h3
      simp [Reader.pending, Reader.all, hc]
    · simp at h

theorem ePNReadLoop_step (avail : Nat → Nat) (conn : Reader)
    (ih : ∀ conn2 : Reader, conn2.pending < conn.pending → ∀ (body : List Byte) (N reads : Nat),
      ePNReadLoop avail body conn2 N reads = readOutcome conn2 body)
    (body : List Byte) (N reads : Nat) (hN : N ≠ 0) :
    ePNReadLoop avail body conn N reads = readOutcome conn body := by
  rw [ePNReadLoop]
  simp only [hN, if_false]
  have hk : 0 < min (MinRead + avail reads) N := by simp [MinRead]; omega
  split
  · rename_i data conn2 heq
    obtain ⟨h1, h2, h3⟩ := Read_none conn conn2 _ data hk heq
    rw [ih conn2 h1, readOutcome, readOutcome, h2, List.append_assoc, h3]
  · rename_i data err conn2 heq
    obtain ⟨h1, h2, h3, h4, h5, h6⟩ := Read_some conn conn2 _ data err heq
    have hall : conn.all = data := by rw [Reader.all, h1, h2]; simp
    by_cases hlen : data.length = N
    · simp only [hlen, if_true]
      have hp : conn2.pending < conn.pending := by
        rw [h6, Reader.pending, h1, ← h2, hlen]; simp; omega
      rw [ih conn2 hp, readOutcome, readOutcome, h5, h4, hall]
      simp
    · simp only [hlen, if_false]
      rw [readOutcome, h3, hall]
      cases hE : conn.final.isEOF <;> simp [hE]

theorem ePNReadLoop_eq (avail : Nat → Nat) :
    ∀ (n : Nat) (conn : Reader), conn.pending = n → ∀ (body : List Byte) (N reads : Nat),
      ePNReadLoop avail body conn N reads = readOutcome conn body := by
  intro n
  induction n using Nat.strong_induction_on with
  | _ n ih =>
    intro conn hn body N reads
    have hstep := ePNReadLoop_step avail conn
      (fun conn2 h2 => ih conn2.pending (by omega) conn2 rfl)
    by_cases hN : N = 0
    · rw [ePNReadLoop]
      simp only [hN, if_true]
      exact hstep body 65536 reads (by decide)
    · exact hstep body N reads hN

/-- C9: for every reader that delivers a finite byte sequence (in chunks of any sizes, read
with buffers of any sizes, the sequence empty or longer than 65536 bytes) and then end of
stream, `ePNReadResponse` returns exactly that sequence and no error; when the reader ends with
an error that is not end of stream, `ePNReadResponse` returns an error and no bytes. -/
theorem ePNReadResponse_correct (avail : Nat → Nat) (conn : Reader) :
    (conn.final.isEOF = true →
      ePNReadResponse avail conn = .ok (conn.chunks.flatten ++ conn.last)) ∧
    (conn.final.isEOF = false →
      ePNReadResponse avail conn
        = .error ("io.CopyN: " ++ conn.final.Error ++ ": " ++ conn.final.Error)) := by
  have h := ePNReadLoop_eq avail conn.pending conn rfl [] 65536 0
  rw [readOutcome] at h
  constructor
  · intro he
    rw [ePNReadResponse, h]
    simp [he, Reader.all]
  · intro he
    rw [ePNReadResponse, h]
    simp [he]

/-- Witness of C9: a response of 70003 bytes in three chunks and a closing piece, then end of
stream; and a reader that breaks with a connection reset. -/
theorem ePNReadResponse_correct_witness :
    ePNReadResponse (fun _ => 0)
        { chunks := [[1, 2], [], List.replicate 70000 7], last := [3], final := .EOF }
      = .ok ([[1, 2], [], List.replicate 70000 7].flatten ++ [3]) ∧
    ePNReadResponse (fun i => i)
        { chunks := [[1, 2]], last := [], final := .other "connection reset by peer" }
      = .error ("io.CopyN: " ++ "connection reset by peer" ++ ": " ++ "connection reset by peer") :=
  ⟨(ePNReadResponse_correct (fun _ => 0)
      { chunks := [[1, 2], [], List.replicate 70000 7], last := [3], final := .EOF }).1 rfl,
   (ePNReadResponse_correct (fun i => i)
      { chunks := [[1, 2]], last := [], final := .other "connection reset by peer" }).2 rfl⟩

/-! ### Connecting to the epn server -/

theorem ePNConnectLoop_no_socket (env : ConnectEnv)
    (hrun : ∀ i, env.isRunning i = true)
    (hdur : ∀ i st, st.ePNServerSocket = none → (env.during i st).ePNServerSocket = none) :
    ∀ (d retries : Nat) (s : EPNState), retries + d = ePNMaxRetries →
      s.ePNServerSocket = none →
      (ePNConnectLoop env s retries).1 = .error "epn socket connect failed: no socket exists" ∧
      (ePNConnectLoop env s retries).2.events
        = s.events ++ List.replicate (d + 1) (.sleep 1000) := by
  intro d
  induction d with
  | zero =>
    intro retries s hd hs
    have hr : retries + 1 > ePNMaxRetries := by omega
    rw [ePNConnectLoop]
    simp only [hrun, Bool.not_true, Bool.false_eq_true, if_false, hs, hr, if_true]
    simp [sleepSecond]
  | succ d ih =>
    intro retries s hd hs
    have hr : ¬ retries + 1 > ePNMaxRetries := by omega
    rw [ePNConnectLoop]
    simp only [hrun, Bool.not_true, Bool.false_eq_true, if_false, hs, hr]
    have hs2 : (sleepSecond env retries s).ePNServerSocket = none := by
      simp only [sleepSecond]
      exact hdur retries s hs
    obtain ⟨h1, h2⟩ := ih (retries + 1) (sleepSecond env retries s) (by omega) hs2
    refine ⟨h1, ?_⟩
    rw [h2]
    simp only [sleepSecond, List.append_assoc, List.singleton_append]
    rw [← List.replicate_succ]

/-- C3 (as amended): while the worker is running and `ePNServerSocket` stays nil, `ePNConnect`
does not loop forever: it returns the failure "no socket exists" after exactly 16 one-second
waits (the first look at the socket and `ePNMaxRetries` = 15 retries, each followed by a
wait), and it does nothing else: it never dials. -/
theorem ePNConnect_no_socket (env : ConnectEnv) (s : EPNState)
    (hrun : ∀ i, env.isRunning i = true) (hs : s.ePNServerSocket = none)
    (hdur : ∀ i st, st.ePNServerSocket = none → (env.during i st).ePNServerSocket = none) :
    (ePNConnect env s).1 = .error "epn socket connect failed: no socket exists" ∧
    (ePNConnect env s).2.events = s.events ++ List.replicate 16 (.sleep 1000) ∧
    sleepCount (ePNConnect env s).2.events = sleepCount s.events + 16 ∧
    ((ePNConnect env s).2.events.filter Event.isDial) = s.events.filter Event.isDial := by
  obtain ⟨h1, h2⟩ := ePNConnectLoop_no_socket env hrun hdur 15 0 s rfl hs
  rw [ePNConnect]
  refine ⟨h1, h2, ?_, ?_⟩
  · rw [h2, sleepCount, sleepCount, List.count_append, List.count_replicate_self]
  · rw [h2, List.filter_append]
    simp [List.filter_replicate, Event.isDial]

/-- Witness of C3 as amended. -/
theorem ePNConnect_no_socket_witness :
    (ePNConnect sampleConnectEnv sampleIdleState).1
      = .error "epn socket connect failed: no socket exists" ∧
    (ePNConnect sampleConnectEnv sampleIdleState).2.events
      = sampleIdleState.events ++ List.replicate 16 (.sleep 1000) ∧
    sleepCount (ePNConnect sampleConnectEnv sampleIdleState).2.events
      = sleepCount sampleIdleState.events + 16 ∧
    ((ePNConnect sampleConnectEnv sampleIdleState).2.events.filter Event.isDial)
      = sampleIdleState.events.filter Event.isDial :=
  ePNConnect_no_socket sampleConnectEnv sampleIdleState (fun _ => rfl) rfl (fun _ _ h => h)

/-- C3 (as stated) fails: with the worker running and no socket ever known, `ePNConnect` has
waited 16 times, not 15, when it returns the failure. -/
theorem ePNConnect_waits_16_times :
    (ePNConnect sampleConnectEnv sampleIdleState).1
      = .error "epn socket connect failed: no socket exists" ∧
    sleepCount (ePNConnect sampleConnectEnv sampleIdleState).2.events = 16 ∧
    sleepCount (ePNConnect sampleConnectEnv sampleIdleState).2.events ≠ 15 := by
  obtain ⟨h1, h2⟩ := ePNConnectLoop_no_socket sampleConnectEnv (fun _ => rfl) (fun _ _ h => h)
    15 0 sampleIdleState rfl rfl
  rw [ePNConnect]
  refine ⟨h1, ?_, ?_⟩ <;> rw [h2] <;> decide

/-! ### The supervisor -/

theorem stopEmbeddedPerl_heap (s : EPNState) : (stopEmbeddedPerl s).heap = s.heap := by
  obtain ⟨process, socket, started, heap, watching, events⟩ := s
  cases process with
  | none => rfl
  | some cmd =>
    obtain ⟨path, args, proc⟩ := cmd
    cases proc with
    | none => rfl
    | some pid =>
      cases socket with
      | none => rfl
      | some name => rfl

theorem startEmbeddedPerl_marker (env : StartEnv) (config : configurationStruct)
    (s : EPNState) (hen : config.enableEmbeddedPerl = true) (hwake : env.wakeDuringWait = []) :
    (startEmbeddedPerl env config s).state.ePNStarted
      = some { addr := s.heap, time := env.now s.heap } ∧
    (startEmbeddedPerl env config s).state.heap = s.heap + 1 := by
  simp only [startEmbeddedPerl, hen, Bool.not_true, Bool.false_eq_true, if_false, hwake,
    runWatchers]
  cases env.createTemp with
  | error err => exact ⟨rfl, rfl⟩
  | ok socketPath =>
    cases env.stdoutPipe with
    | some err => exact ⟨rfl, rfl⟩
    | none =>
      cases env.stderrPipe with
      | some err => exact ⟨rfl, rfl⟩
      | none =>
        cases env.start with
        | error err => exact ⟨rfl, rfl⟩
        | ok pid =>
          cases env.socketAppears with
          | true => exact ⟨rfl, rfl⟩
          | false => exact ⟨rfl, rfl⟩

/-- The restart when no watching goroutine wakes during the call: nothing changes when
embedded perl is disabled or the marker is set; otherwise the state left has a marker at an
address not allocated before the call. -/
theorem checkRestartEPNServer_undisturbed (env : StartEnv)
    (config : configurationStruct) (s : EPNState)
    (hearly : env.wakeEarly = []) (hwake : env.wakeDuringWait = []) :
    ((config.enableEmbeddedPerl = false ∨ s.ePNStarted ≠ none) →
      checkRestartEPNServer env config s = .returned s) ∧
    (config.enableEmbeddedPerl = true → s.ePNStarted = none →
      ∃ m : TimePtr, (checkRestartEPNServer env config s).state.ePNStarted = some m ∧
        m.addr = s.heap + 1 ∧
        ∀ old : TimePtr, old.addr < s.heap → samePtr (some old) (some m) = false) := by
  constructor
  · intro h
    rw [checkRestartEPNServer]
    rcases h with h | h
    · simp [h]
    · cases hst : s.ePNStarted with
      | none => exact absurd hst h
      | some m => simp
  · intro hen hst
    obtain ⟨s1, hs1⟩ : ∃ s1 : EPNState, s1 =
        ({ s with ePNStarted := some { addr := s.heap, time := env.now s.heap },
                  heap := s.heap + 1 }.emit [.log "warn" "restarting epn server"]) := ⟨_, rfl⟩
    have heq : checkRestartEPNServer env config s
        = startEmbeddedPerl env config (stopEmbeddedPerl s1) := by
      rw [checkRestartEPNServer, hs1]
      simp [hen, hst, hearly, runWatchers]
    have h1 : s1.heap = s.heap + 1 := by rw [hs1]; rfl
    obtain ⟨hm, _⟩ := startEmbeddedPerl_marker env config (stopEmbeddedPerl s1) hen hwake
    rw [stopEmbeddedPerl_heap, h1] at hm
    rw [heq]
    refine ⟨_, hm, rfl, ?_⟩
    intro old hold
    simp only [samePtr, Option.map_some', beq_eq_false_iff_ne, ne_eq, Option.some.injEq]
    omega

/-- The restart of the sample state with no goroutine waking, event by event. -/
theorem checkRestartEPNServer_sample_run :
    checkRestartEPNServer sampleStartEnv sampleConfig sampleStaleState =
    .returned
      { ePNServerProcess := some { Path := "p1.pl", Args := ["/tmp/new.socket"], Process := some 42 },
        ePNServerSocket := some "/tmp/new.socket",
        ePNStarted := some { addr := 4, time := 4000 },
        heap := 5,
        watching := [41, 42],
        events := [.log "warn" "restarting epn server", .signal 41, .release 41,
          .remove "/tmp/old.socket", .log "debug" "epn worker shutdown complete",
          .log "debug" "starting embedded perl worker", .remove "/tmp/new.socket",
          .start "p1.pl" ["/tmp/new.socket"], .watch 42] } := by
  decide

/-- C7: the code leaves no marker. Embedded perl is enabled, the server with process 41 runs
and its marker is unset, so `checkRestartEPNServer` stops it and starts process 42. The
goroutine that `startEmbeddedPerl` had started for process 41 returns from `cmd.Wait()` once the
interrupted process has exited, here while the new start waits for the socket, and calls
`stopEmbeddedPerl` on the package variables, which hold the new server by then: process 42 is
interrupted, its socket removed, the fresh marker cleared. The wait times out and the process
ends with process, socket and marker all nil. -/
theorem checkRestartEPNServer_old_watcher_clears_marker :
    sampleConfig.enableEmbeddedPerl = true ∧
    sampleStaleState.ePNStarted = none ∧
    (checkRestartEPNServer sampleRaceEnv sampleConfig sampleStaleState).state.ePNStarted
      = none ∧
    checkRestartEPNServer sampleRaceEnv sampleConfig sampleStaleState =
    .exited 1
      { ePNServerProcess := none,
        ePNServerSocket := none,
        ePNStarted := none,
        heap := 5,
        watching := [42],
        events := [.log "warn" "restarting epn server", .signal 41, .release 41,
          .remove "/tmp/old.socket", .log "debug" "epn worker shutdown complete",
          .log "debug" "starting embedded perl worker", .remove "/tmp/new.socket",
          .start "p1.pl" ["/tmp/new.socket"], .watch 42,
          .log "error" "epn server errored: signal: interrupt: signal: interrupt",
          .signal 42, .release 42, .remove "/tmp/new.socket",
          .log "debug" "epn worker shutdown complete",
          .stderr "Error: timeout (5s) while waiting for epn socket",
          .log "error" "epn startup error: timeout (5s) while waiting for epn socket"] } := by
  decide

/-- The same schedule when the socket of the new server is still seen in time:
`checkRestartEPNServer` returns, and the state it leaves has no process, no socket and no
marker. -/
theorem checkRestartEPNServer_old_watcher_after_socket :
    (checkRestartEPNServer { sampleRaceEnv with socketAppears := true } sampleConfig
        sampleStaleState).state.ePNStarted = none ∧
    (checkRestartEPNServer { sampleRaceEnv with socketAppears := true } sampleConfig
        sampleStaleState).state.ePNServerProcess = none := by
  decide

/-- A goroutine that wakes between the stop and the start of a restart finds no process and
changes none of the package variables: the restart ends as when no goroutine wakes, the woken
goroutine gone from the watchers and its error logged. -/
theorem checkRestartEPNServer_old_watcher_early :
    (checkRestartEPNServer { sampleStartEnv with wakeEarly := [41] } sampleConfig
        sampleStaleState).state.ePNStarted = some { addr := 4, time := 4000 } ∧
    (checkRestartEPNServer { sampleStartEnv with wakeEarly := [41] } sampleConfig
        sampleStaleState).state.watching = [42] := by
  decide

/-! ### Delivery of a result -/

theorem deliveryTrace_append (a b : List Event) :
    deliveryTrace (a ++ b) = deliveryTrace a ++ deliveryTrace b := by
  induction a with
  | nil => rfl
  | cons e es ih => cases e <;> simp [deliveryTrace, ih]

theorem sleepCount_deliveryTrace (es : List Event) :
    sleepCount (deliveryTrace es) = sleepCount es := by
  induction es with
  | nil => rfl
  | cons e es ih =>
    simp only [sleepCount] at ih ⊢
    cases e <;> simp [deliveryTrace, List.count_cons, ih]

theorem sleepCount_sends (server : List String) : sleepCount (server.map Event.send) = 0 := by
  induction server with
  | nil => rfl
  | cons a rest ih =>
    simp only [sleepCount] at ih ⊢
    simp [List.count_cons, ih]

theorem sleepCount_passes (server : List String) (n : Nat) :
    sleepCount (passes server n) = n := by
  induction n with
  | zero => exact sleepCount_sends server
  | succ n ih =>
    have h0 := sleepCount_sends server
    simp only [sleepCount] at ih h0 ⊢
    simp [passes, List.count_append, ih, h0]

/-- A pass in which every delivery fails: each destination is tried once, in order. -/
theorem sendPass_all_fail {ρ : Type} (sendAnswer : SendAnswer ρ) (encryption : Bool)
    (hfail : ∀ i c r a k, (sendAnswer i c r a k).2 ≠ none) (server : List String) :
    ∀ st : SendState ρ,
      (sendPass sendAnswer encryption server st).sendSuccess = st.sendSuccess ∧
      (sendPass sendAnswer encryption server st).client = st.client ∧
      (sendPass sendAnswer encryption server st).result = st.result ∧
      deliveryTrace (sendPass sendAnswer encryption server st).events
        = deliveryTrace st.events ++ server.map Event.send := by
  induction server with
  | nil => intro st; simp [sendPass]
  | cons a rest ih =>
    intro st
    rw [sendPass]
    cases hsa : sendAnswer st.calls st.client st.result a encryption with
    | mk c e =>
      cases e with
      | none =>
        exfalso
        apply hfail st.calls st.client st.result a encryption
        rw [hsa]
      | some e =>
        cases c with
        | none =>
          simp only
          refine ⟨(ih _).1, (ih _).2.1, (ih _).2.2.1, ?_⟩
          rw [(ih _).2.2.2]
          simp [deliveryTrace_append, deliveryTrace]
        | some cl =>
          simp only
          refine ⟨(ih _).1, (ih _).2.1, (ih _).2.2.1, ?_⟩
          rw [(ih _).2.2.2]
          simp [deliveryTrace_append, deliveryTrace]

/-- The delivery loop when every delivery fails: from `retries` on it makes `122 - retries`
passes with a wait between two passes. -/
theorem SendResultLoop_all_fail {ρ : Type} (sendAnswer : SendAnswer ρ)
    (config : configurationStruct)
    (hfail : ∀ i c r a k, (sendAnswer i c r a k).2 ≠ none) :
    ∀ (d retries : Nat) (st : SendState ρ), retries + d = 121 → st.sendSuccess = false →
      deliveryTrace (SendResultLoop sendAnswer config st retries).events
        = deliveryTrace st.events ++ passes config.server d := by
  intro d
  induction d with
  | zero =>
    intro retries st hd hs
    obtain ⟨h1, _, _, h4⟩ := sendPass_all_fail sendAnswer config.encryption hfail
      config.server { st with err := none }
    have hr : retries > 120 := by omega
    rw [SendResultLoop]
    simp only [hr, or_true, if_true]
    rw [h4]
    rfl
  | succ d ih =>
    intro retries st hd hs
    obtain ⟨h1, _, _, h4⟩ := sendPass_all_fail sendAnswer config.encryption hfail
      config.server { st with err := none }
    have hr : ¬ retries > 120 := by omega
    rw [SendResultLoop]
    generalize sendPass sendAnswer config.encryption config.server { st with err := none } = p
      at h1 h4 ⊢
    have hs1 : p.sendSuccess = false := by rw [h1]; exact hs
    simp only [hs1, Bool.false_eq_true, hr, or_self, if_false]
    rw [ih (retries + 1) _ (by omega) (by split <;> first | rfl | exact hs1)]
    split <;>
      simp only [deliveryTrace_append, h4, deliveryTrace, passes, List.append_assoc,
        List.append_nil, List.nil_append]

theorem SendResult_all_fail {ρ : Type} (sendAnswer : SendAnswer ρ) (w : worker)
    (result : answer ρ) (hfail : ∀ i c r a k, (sendAnswer i c r a k).2 ≠ none) :
    deliveryTrace (SendResult sendAnswer w result).2.events = passes w.config.server 121 ∧
    sleepCount (SendResult sendAnswer w result).2.events = 121 := by
  have h := SendResultLoop_all_fail sendAnswer w.config hfail 121 0
    { client := w.client, result := result, sendSuccess := false, err := none, calls := 0,
      events := [] } rfl rfl
  have h2 : deliveryTrace (SendResult sendAnswer w result).2.events
      = passes w.config.server 121 := by
    rw [SendResult]
    simp only [h]
    rfl
  refine ⟨h2, ?_⟩
  rw [← sleepCount_deliveryTrace, h2, sleepCount_passes]

/-- C2: the code is off by one. With the servers `s1`, `s2` and every delivery failing,
`SendResult` makes 122 passes over the list, each pass trying `s1` then `s2` once, with 121
one-second waits between them: 121 retries, not 120. -/
theorem SendResult_retries_121_times :
    deliveryTrace (SendResult sendAnswerFails sampleWorker sampleResult).2.events
      = passes ["s1", "s2"] 121 ∧
    sleepCount (SendResult sendAnswerFails sampleWorker sampleResult).2.events = 121 ∧
    sleepCount (SendResult sendAnswerFails sampleWorker sampleResult).2.events ≠ 120 := by
  obtain ⟨h1, h2⟩ := SendResult_all_fail sendAnswerFails sampleWorker sampleResult
    (fun _ _ _ _ _ => by simp [sendAnswerFails])
  refine ⟨h1, h2, ?_⟩
  rw [h2]
  decide

/-! ### Duplicate delivery -/

theorem sendDupPass_passive {ρ : Type} (sendAnswer : SendAnswer ρ)
    (config : configurationStruct) (hp : config.dupResultsArePassive = true)
    (server : List String) :
    ∀ st : SendState ρ, (server ≠ [] ∨ st.result.active = "passive") →
      (sendDupPass sendAnswer config server st).result
        = { st.result with active := "passive" } := by
  induction server with
  | nil =>
    intro st h
    rcases h with h | h
    · exact absurd rfl h
    · rw [sendDupPass, ← h]
  | cons a rest ih =>
    intro st _
    rw [sendDupPass]
    simp only [hp, if_true]
    split
    · rfl
    · rename_i c e _
      cases c with
      | none => simp only; rw [ih _ (Or.inr rfl)]
      | some cl => simp only; rw [ih _ (Or.inr rfl)]

theorem sendDupPass_plain {ρ : Type} (sendAnswer : SendAnswer ρ)
    (config : configurationStruct) (hp : config.dupResultsArePassive = false)
    (server : List String) :
    ∀ st : SendState ρ, (sendDupPass sendAnswer config server st).result = st.result := by
  induction server with
  | nil => intro st; rfl
  | cons a rest ih =>
    intro st
    rw [sendDupPass]
    simp only [hp, Bool.false_eq_true, if_false]
    split
    · rfl
    · rename_i c e _
      cases c with
      | none => simp only; rw [ih]
      | some cl => simp only; rw [ih]

theorem SendResultDupLoop_passive {ρ : Type} (sendAnswer : SendAnswer ρ)
    (config : configurationStruct) (hp : config.dupResultsArePassive = true)
    (hne : config.dupserver ≠ []) :
    ∀ (d retries : Nat) (st : SendState ρ), retries + d = 121 →
      (SendResultDupLoop sendAnswer config st retries).result
        = { st.result with active := "passive" } := by
  intro d
  induction d with
  | zero =>
    intro retries st hd
    have hr : retries > 120 := by omega
    rw [SendResultDupLoop]
    simp only [hr, or_true, if_true]
    exact sendDupPass_passive sendAnswer config hp config.dupserver _ (Or.inl hne)
  | succ d ih =>
    intro retries st hd
    have hres := sendDupPass_passive sendAnswer config hp config.dupserver
      { st with err := none } (Or.inl hne)
    rw [SendResultDupLoop]
    generalize sendDupPass sendAnswer config config.dupserver { st with err := none } = p
      at hres ⊢
    simp only
    split
    · exact hres
    · rw [ih (retries + 1) _ (by omega)]
      split <;> simp only [hres]

theorem SendResultDupLoop_plain {ρ : Type} (sendAnswer : SendAnswer ρ)
    (config : configurationStruct) (hp : config.dupResultsArePassive = false) :
    ∀ (d retries : Nat) (st : SendState ρ), retries + d = 121 →
      (SendResultDupLoop sendAnswer config st retries).result = st.result := by
  intro d
  induction d with
  | zero =>
    intro retries st hd
    have hr : retries > 120 := by omega
    rw [SendResultDupLoop]
    simp only [hr, or_true, if_true]
    exact sendDupPass_plain sendAnswer config hp config.dupserver _
  | succ d ih =>
    intro retries st hd
    have hres := sendDupPass_plain sendAnswer config hp config.dupserver { st with err := none }
    rw [SendResultDupLoop]
    generalize sendDupPass sendAnswer config config.dupserver { st with err := none } = p
      at hres ⊢
    simp only
    split
    · exact hres
    · rw [ih (retries + 1) _ (by omega)]
      split <;> simp only [hres]

/-- C1 (as amended): with a non-empty dupserver list and `dupResultsArePassive` enabled,
`SendResultDup` sets the field `active` of the result object it was given to "passive" and
leaves every other field as it was, whether or not a duplicate delivery succeeds; with an empty
dupserver list, or with `dupResultsArePassive` disabled, it leaves the result object unchanged. -/
theorem SendResultDup_result {ρ : Type} (sendAnswer : SendAnswer ρ) (w : worker)
    (result : answer ρ) :
    (w.config.dupserver ≠ [] → w.config.dupResultsArePassive = true →
      (SendResultDup sendAnswer w result).2.result = { result with active := "passive" }) ∧
    ((w.config.dupserver = [] ∨ w.config.dupResultsArePassive = false) →
      (SendResultDup sendAnswer w result).2.result = result) := by
  constructor
  · intro hne hp
    have hlen : ¬ w.config.dupserver.length = 0 := by
      rw [List.length_eq_zero]; exact hne
    rw [SendResultDup]
    simp only [hlen, if_false]
    exact SendResultDupLoop_passive sendAnswer w.config hp hne 121 0 _ rfl
  · intro h
    rw [SendResultDup]
    by_cases hlen : w.config.dupserver.length = 0
    · simp only [hlen, if_true]
    · simp only [hlen, if_false]
      rcases h with h | h
      · exact absurd (by rw [h]; rfl) hlen
      · exact SendResultDupLoop_plain sendAnswer w.config h 121 0 _ rfl

/-- Witness of C1 as amended: with `d1` configured and passive marking on, the active result
comes back marked "passive", its other fields as before, both when the delivery succeeds and
when every delivery fails; with passive marking off it comes back unchanged. -/
theorem SendResultDup_result_witness :
    (SendResultDup sendAnswerSucceeds sampleWorker sampleResult).2.result
      = { sampleResult with active := "passive" } ∧
    (SendResultDup sendAnswerFails sampleWorker sampleResult).2.result
      = { sampleResult with active := "passive" } ∧
    (SendResultDup sendAnswerSucceeds
        { sampleWorker with config := { sampleConfig with dupResultsArePassive := false } }
        sampleResult).2.result = sampleResult :=
  ⟨(SendResultDup_result sendAnswerSucceeds sampleWorker sampleResult).1 (by decide) rfl,
   (SendResultDup_result sendAnswerFails sampleWorker sampleResult).1 (by decide) rfl,
   (SendResultDup_result sendAnswerSucceeds
      { sampleWorker with config := { sampleConfig with dupResultsArePassive := false } }
      sampleResult).2 (Or.inr rfl)⟩

/-- C1 (as stated) fails: with the duplicate server `d1` and `dupResultsArePassive` enabled,
the result object handed to `SendResultDup` (the one primary delivery used) is classified
"active" before the call and "passive" after it. -/
theorem SendResultDup_mutates_result :
    sampleWorker.config.dupserver ≠ [] ∧
    sampleWorker.config.dupResultsArePassive = true ∧
    sampleResult.active = "active" ∧
    (SendResultDup sendAnswerSucceeds sampleWorker sampleResult).2.result.active = "passive" ∧
    (SendResultDup sendAnswerSucceeds sampleWorker sampleResult).2.result ≠ sampleResult := by
  have h : (SendResultDup sendAnswerSucceeds sampleWorker sampleResult).2.result
      = { sampleResult with active := "passive" } := by
    rw [SendResultDup]
    exact SendResultDupLoop_passive sendAnswerSucceeds sampleConfig rfl (by decide) 121 0 _ rfl
  refine ⟨by decide, rfl, rfl, ?_, ?_⟩
  · rw [h]
  · rw [h]
    decide

/-! ### One exchange with the epn server -/

theorem executeWithEmbeddedPerl_ok {ρ : Type} (env : ExecEnv) (cmd : command)
    (result : answer ρ) (received : receivedStruct) (s s1 : EPNState) (msg buf : List Byte)
    (c : Conn) (res : ePNRes)
    (hm : env.marshal { Bin := cmd.Command, Args := cmd.Args, Env := cmd.Env,
                        Timeout := received.timeout } = .ok msg)
    (hc : ePNConnect env.connect s = (.ok c, s1)) (hw : c.writeErr = none)
    (hr : ePNReadResponse env.avail c.reader = .ok buf) (hu : env.unmarshal buf = .ok res) :
    (executeWithEmbeddedPerl env cmd result received s).err = none ∧
    (executeWithEmbeddedPerl env cmd result received s).result
      = { result with output := res.Stdout, returnCode := res.RC,
                      compileDuration := res.CompileDuration,
                      runUserDuration := res.CPUUser } := by
  simp only [executeWithEmbeddedPerl, hm, hc, hw, hr, hu, and_self]

theorem sampleConnect (res : ePNRes) :
    ePNConnect (sampleExecEnv res).connect sampleRunningState
      = (.ok sampleConn, sampleRunningState.emit [.dial "/tmp/epn.socket"]) := by
  rw [ePNConnect, ePNConnectLoop]
  rfl

theorem sampleRead (res : ePNRes) :
    ePNReadResponse (sampleExecEnv res).avail sampleConn.reader = .ok [123, 125, 10] := by
  rw [ePNReadResponse, ePNReadLoop_eq _ _ _ rfl]
  rfl

/-- C6 (as amended): whenever `executeWithEmbeddedPerl` succeeds, the response read from the
connection decoded to some `ePNRes`, and the result object afterwards is the one passed in with
its return code set to `rc`, its output to `stdout`, its compile duration to `compile_duration`
and its user CPU time to `cpu_user` of that response, all its other fields unchanged. (The
reported `run_duration` is decoded and not stored.) -/
theorem executeWithEmbeddedPerl_reproduces {ρ : Type} (env : ExecEnv) (cmd : command)
    (result : answer ρ) (received : receivedStruct) (s : EPNState)
    (hok : (executeWithEmbeddedPerl env cmd result received s).err = none) :
    ∃ (c : Conn) (s1 : EPNState) (buf : List Byte) (res : ePNRes),
      ePNConnect env.connect s = (.ok c, s1) ∧
      ePNReadResponse env.avail c.reader = .ok buf ∧
      env.unmarshal buf = .ok res ∧
      (executeWithEmbeddedPerl env cmd result received s).result
        = { result with output := res.Stdout, returnCode := res.RC,
                        compileDuration := res.CompileDuration,
                        runUserDuration := res.CPUUser } := by
  rw [executeWithEmbeddedPerl] at hok ⊢
  cases hm : env.marshal { Bin := cmd.Command, Args := cmd.Args, Env := cmd.Env,
                           Timeout := received.timeout } with
  | error e => simp [hm] at hok
  | ok msg =>
    cases hc : ePNConnect env.connect s with
    | mk r s1 =>
      cases r with
      | error e => simp [hm, hc] at hok
      | ok c =>
        cases hw : c.writeErr with
        | some e => simp [hm, hc, hw] at hok
        | none =>
          cases hr : ePNReadResponse env.avail c.reader with
          | error e => simp [hm, hc, hw, hr] at hok
          | ok buf =>
            cases hu : env.unmarshal buf with
            | error e => simp [hm, hc, hw, hr, hu] at hok
            | ok res =>
              refine ⟨c, s1, buf, res, rfl, hr, hu, ?_⟩
              simp only [hw, hr, hu]

/-- Witness of C6 as amended: an exchange that succeeds. -/
theorem executeWithEmbeddedPerl_reproduces_witness :
    ∃ (c : Conn) (s1 : EPNState) (buf : List Byte) (res : ePNRes),
      ePNConnect (sampleExecEnv (sampleEPNRes { bits := 15 })).connect sampleRunningState
        = (.ok c, s1) ∧
      ePNReadResponse (sampleExecEnv (sampleEPNRes { bits := 15 })).avail c.reader = .ok buf ∧
      (sampleExecEnv (sampleEPNRes { bits := 15 })).unmarshal buf = .ok res ∧
      (executeWithEmbeddedPerl (sampleExecEnv (sampleEPNRes { bits := 15 })) sampleCommand
          sampleResult sampleReceived sampleRunningState).result
        = { sampleResult with output := res.Stdout, returnCode := res.RC,
                              compileDuration := res.CompileDuration,
                              runUserDuration := res.CPUUser } :=
  executeWithEmbeddedPerl_reproduces (sampleExecEnv (sampleEPNRes { bits := 15 }))
    sampleCommand sampleResult sampleReceived sampleRunningState
    (executeWithEmbeddedPerl_ok (sampleExecEnv (sampleEPNRes { bits := 15 })) sampleCommand
      sampleResult sampleReceived sampleRunningState _ [123, 125] [123, 125, 10] sampleConn
      (sampleEPNRes { bits := 15 }) rfl (sampleConnect _) rfl (sampleRead _) rfl).1

/-- C6 (as stated) fails: two successful exchanges whose responses differ in `run_duration`
only leave the same result object, so the reported run duration is not in the result. -/
theorem executeWithEmbeddedPerl_drops_run_duration :
    (executeWithEmbeddedPerl (sampleExecEnv (sampleEPNRes { bits := 15 })) sampleCommand
        sampleResult sampleReceived sampleRunningState).err = none ∧
    (executeWithEmbeddedPerl (sampleExecEnv (sampleEPNRes { bits := 25 })) sampleCommand
        sampleResult sampleReceived sampleRunningState).err = none ∧
    (sampleEPNRes { bits := 15 }).RunDuration ≠ (sampleEPNRes { bits := 25 }).RunDuration ∧
    (executeWithEmbeddedPerl (sampleExecEnv (sampleEPNRes { bits := 15 })) sampleCommand
        sampleResult sampleReceived sampleRunningState).result
      = (executeWithEmbeddedPerl (sampleExecEnv (sampleEPNRes { bits := 25 })) sampleCommand
          sampleResult sampleReceived sampleRunningState).result := by
  have h1 := executeWithEmbeddedPerl_ok (sampleExecEnv (sampleEPNRes { bits := 15 }))
    sampleCommand sampleResult sampleReceived sampleRunningState _ [123, 125] [123, 125, 10]
    sampleConn (sampleEPNRes { bits := 15 }) rfl (sampleConnect _) rfl (sampleRead _) rfl
  have h2 := executeWithEmbeddedPerl_ok (sampleExecEnv (sampleEPNRes { bits := 25 }))
    sampleCommand sampleResult sampleReceived sampleRunningState _ [123, 125] [123, 125, 10]
    sampleConn (sampleEPNRes { bits := 25 }) rfl (sampleConnect _) rfl (sampleRead _) rfl
  refine ⟨h1.1, h2.1, by decide, ?_⟩
  rw [h1.2, h2.2]
  rfl

end ModGearman
